import Mathlib

/-!
Shallow embedding of the rule-based triage engine of AutoModder
(src/automodder): the check/qualifier model (checks.py), the modqueue
item scanner (managers/modqueue.py), the modmail conversation scanner
(managers/modmail.py) and the moderator-activity ladder classifier
(managers/inactivity.py together with models/subreddit_bucket.py).

Presentation-only details that cannot affect the modelled logic are
abstracted: log lines are not tracked, click.style ANSI colouring is
dropped from check messages, and the lazily pulled praw listings are
modelled as the finite sequence of items they yield together with an
optional terminal error (prawcore.Forbidden or a generic exception
raised by the generator).
-/

namespace AutoModder

/-- ActionQualifier from checks.py: how a check combines with the others. -/
inductive ActionQualifier
  | ANY
  | ALL
deriving DecidableEq

/-- Check from checks.py: a predicate over an item returning a verdict
together with a message explaining a positive verdict, tagged with a
qualifier (the source constructor defaults it to ActionQualifier.ALL). -/
structure Check (T : Type) where
  func : T → Bool × String
  qualifier : ActionQualifier

/-- The fields of a praw Comment or Submission that the modqueue scanner
and its checks read.  approved_by is the approving moderator (none when
the item was never approved); banned_by records whether that attribute
is literally True, which is how check_removed_by_automated_spam tests it. -/
structure MqItem where
  id : Nat
  score : Int
  approved_by : Option String
  removed_by_category : Option String
  banned_by : Bool
  ban_note : Option String
deriving DecidableEq

/-- check_score from checks.py: matches when the item's score is below
the minimum (ANSI colouring of the message dropped). -/
def check_score (min_score : Int) : Check MqItem :=
  Check.mk
    (fun item =>
      let result := decide (item.score < min_score)
      (result,
        if result then toString item.score ++ " < " ++ toString min_score else ""))
    ActionQualifier.ALL

/-- check_removed_by_automated_spam from checks.py: an ANY-qualified
check matching items the platform itself flagged as spam. -/
def check_removed_by_automated_spam : Check MqItem :=
  Check.mk
    (fun item =>
      let results :=
        [decide (item.removed_by_category = some "reddit")] ++
          (if item.banned_by then [decide (item.ban_note = some "spam")] else [])
      let result := results.any id
      (result, if result then "automated system marked it as spam" else ""))
    ActionQualifier.ANY

/-- Outcome of the inner check loop of Modqueue.scan for one item:
either the reapprove short-circuit fired, or the final value of the
loop's remove flag routed the item to the remove bucket together with
the accumulated messages, or the item is dropped. -/
inductive ItemOutcome
  | reapprove
  | remove (messages : List String)
  | keep
deriving DecidableEq

/-- The body of Modqueue.scan for a single item: the Python loop
over self.checks with its accumulators remove (rm) and messages (msgs).
The second component is ghost instrumentation recording, in order, the
checks whose func was invoked; it is used to state the short-circuit
properties and does not feed back into the outcome. -/
def evalChecks (reapprove : Bool) (item : MqItem) :
    List (Check MqItem) → Bool → List String → ItemOutcome × List (Check MqItem)
  | [], rm, msgs => (if rm then ItemOutcome.remove msgs else ItemOutcome.keep, [])
  | c :: rest, rm, msgs =>
    if reapprove = true ∧ item.approved_by.isSome = true then
      (ItemOutcome.reapprove, [])
    else
      let r := c.func item
      let msgs2 := if r.1 = true then msgs ++ [r.2] else msgs
      let rm2 := if c.qualifier = ActionQualifier.ALL then rm && r.1 else rm
      if r.1 = true ∧ c.qualifier = ActionQualifier.ANY then
        (ItemOutcome.remove msgs2, [c])
      else
        let rest2 := evalChecks reapprove item rest rm2 msgs2
        (rest2.1, c :: rest2.2)

/-- Whether the outcome marks the item matched, i.e. routed to the
remove bucket. -/
def ItemOutcome.matched : ItemOutcome → Bool
  | ItemOutcome.remove _ => true
  | _ => false

/-- The two bucket lists a Modqueue instance accumulates. -/
structure MqState where
  items_to_reapprove : List MqItem
  items_to_remove : List MqItem
deriving DecidableEq

/-- The empty buckets a fresh Modqueue starts with. -/
def initMqState : MqState := MqState.mk [] []

/-- One iteration of the outer item loop of Modqueue.scan: route the
item according to the outcome of the check loop. -/
def scanItem (reapprove : Bool) (checks : List (Check MqItem)) (st : MqState)
    (item : MqItem) : MqState :=
  match (evalChecks reapprove item checks true []).1 with
  | ItemOutcome.reapprove =>
    MqState.mk (st.items_to_reapprove ++ [item]) st.items_to_remove
  | ItemOutcome.remove _ =>
    MqState.mk st.items_to_reapprove (st.items_to_remove ++ [item])
  | ItemOutcome.keep => st

/-- The outer item loop of Modqueue.scan over the items the listing
yields before terminating or raising. -/
def scanLoop (reapprove : Bool) (checks : List (Check MqItem)) :
    List MqItem → MqState → MqState
  | [], st => st
  | item :: rest, st => scanLoop reapprove checks rest (scanItem reapprove checks st item)

/-- Errors a praw listing can raise while being iterated. -/
inductive ScanError
  | forbidden
  | generic
deriving DecidableEq

/-- A lazily pulled listing, modelled as the items it yields followed by
an optional error raised by the generator after the last yielded item. -/
structure Listing where
  items : List MqItem
  error : Option ScanError
deriving DecidableEq

/-- Moderation actions issued against the platform, identified by item id. -/
inductive ModAction
  | approve (id : Nat)
  | remove (id : Nat)
  | lock (id : Nat)
deriving DecidableEq

namespace Modqueue

/-- Modqueue.scan: runs the item loop; the surrounding try/except turns
a listing error into a (0, 0) return while the bucket lists, which live
on the instance, keep whatever the loop appended before the error. -/
def scan (reapprove : Bool) (checks : List (Check MqItem)) (listing : Listing)
    (st : MqState) : MqState × Nat × Nat :=
  let st2 := scanLoop reapprove checks listing.items st
  match listing.error with
  | some _ => (st2, 0, 0)
  | none => (st2, st2.items_to_remove.length, st2.items_to_reapprove.length)

/-- Modqueue.reapprove_found: approves every item in items_to_reapprove. -/
def reapprove_found (st : MqState) : List ModAction :=
  st.items_to_reapprove.map (fun item => ModAction.approve item.id)

/-- The action sequence of the loop of Modqueue.remove_found: each item
is removed and then locked; lock_fails tells which lock calls raise
(such a failure is logged and skips only that item's lock, the loop
continues). -/
def removeActions (lock_fails : MqItem → Bool) : List MqItem → List ModAction
  | [] => []
  | item :: rest =>
    ModAction.remove item.id ::
      ((if lock_fails item then [] else [ModAction.lock item.id]) ++
        removeActions lock_fails rest)

/-- Modqueue.remove_found: removes then locks every item in
items_to_remove. -/
def remove_found (lock_fails : MqItem → Bool) (st : MqState) : List ModAction :=
  removeActions lock_fails st.items_to_remove

end Modqueue

/-- The fields of a praw ModmailConversation that the modmail scanner
and its checks read.  The update fields hold ISO timestamps when
present. -/
structure Conversation where
  id : Nat
  owner : String
  last_user_update : Option String
  last_mod_update : Option String
  is_internal : Bool
deriving DecidableEq

/-- check_unanswered from checks.py: unless ignore_unanswered is set,
matches when the conversation has no moderator update at all (ANSI
colouring of the message dropped). -/
def check_unanswered (ignore_unanswered : Bool) : Check Conversation :=
  Check.mk
    (fun item =>
      if ignore_unanswered then (false, "")
      else
        let result := item.last_mod_update.isNone
        (result, if result then "unanswered" else ""))
    ActionQualifier.ALL

/-- The inner loop of Modmail.scan over the checks for one conversation:
the first check returning a positive verdict breaks the loop (its
message is logged); none is returned when no check matched, in which
case the for-else branch archives the conversation. -/
def firstMatch (checks : List (Check Conversation)) (conversation : Conversation) :
    Option String :=
  match checks with
  | [] => none
  | check :: rest =>
    let r := check.func conversation
    if r.1 = true then some r.2 else firstMatch rest conversation

/-- Python set.add on the items_to_archive set, with insertion order made
explicit: adding an element already present leaves the set unchanged. -/
def setAdd (s : List Conversation) (c : Conversation) : List Conversation :=
  if c ∈ s then s else s ++ [c]

/-- The loop of Modmail.scan over one state's conversations: a
conversation no check matched is added to the items_to_archive set. -/
def processConversations (checks : List (Check Conversation)) :
    List Conversation → List Conversation → List Conversation
  | [], archive => archive
  | c :: rest, archive =>
    processConversations checks rest
      (if (firstMatch checks c).isSome then archive else setAdd archive c)

namespace Modmail

/-- The outer loop of Modmail.scan over the states: the listing is
re-queried once per state; Modmail.scan has no try/except, so an error
raised by a listing propagates (here: short-circuits to that error). -/
def scanStates (checks : List (Check Conversation))
    (listing : String → Except ScanError (List Conversation)) :
    List String → List Conversation → Except ScanError (List Conversation)
  | [], archive => Except.ok archive
  | s :: rest, archive =>
    match listing s with
    | Except.error e => Except.error e
    | Except.ok conversations =>
      scanStates checks listing rest (processConversations checks conversations archive)

/-- Modmail.scan: runs the state loop from the given archive set and
returns the set together with its cardinality (scan's return value);
a listing failure propagates to the caller as an error. -/
def scan (checks : List (Check Conversation)) (states : List String)
    (listing : String → Except ScanError (List Conversation))
    (archive : List Conversation) :
    Except ScanError (List Conversation × Nat) :=
  match scanStates checks listing states archive with
  | Except.error e => Except.error e
  | Except.ok found => Except.ok (found, found.length)

end Modmail

/-- The fields of a moderator roster entry that InactivityManager.scan
reads (praw Redditor with the subreddit-relative is_active attribute). -/
structure Moderator where
  name : String
  is_active : Bool
deriving DecidableEq

/-- InactivityManager.contain_active. -/
def contain_active (moderators : List Moderator) : Bool :=
  moderators.any (fun mod => mod.is_active)

/-- InactivityManager.contain_all_inactive. -/
def contain_all_inactive (moderators : List Moderator) : Bool :=
  moderators.all (fun mod => !mod.is_active)

/-- InactivityManager.contain_inactive. -/
def contain_inactive (moderators : List Moderator) : Bool :=
  moderators.any (fun mod => !mod.is_active)

/-- The loop accumulators of InactivityManager.scan for one subreddit. -/
structure RosterAcc where
  entire_sub_inactive : Bool
  above_me : List Moderator
  below_me : List Moderator
  my_position : Option Nat
  im_active : Bool
deriving DecidableEq

/-- The accumulators before the moderator loop runs. -/
def initRosterAcc : RosterAcc := RosterAcc.mk true [] [] none false

/-- The moderator loop of InactivityManager.scan: positions enumerate
from 1; a moderator seen while my_position is still unset goes to
above_me, every other one (the scanning subject included, since the
name test sets my_position before the partition) goes to below_me. -/
def rosterFold (meName : String) : List Moderator → Nat → RosterAcc → RosterAcc
  | [], _, acc => acc
  | moderator :: rest, position, acc =>
    let acc1 := RosterAcc.mk (acc.entire_sub_inactive && !moderator.is_active)
      acc.above_me acc.below_me acc.my_position acc.im_active
    let acc2 :=
      if moderator.name = meName then
        RosterAcc.mk acc1.entire_sub_inactive acc1.above_me acc1.below_me
          (some position) moderator.is_active
      else acc1
    let acc3 :=
      if acc2.my_position = none then
        RosterAcc.mk acc2.entire_sub_inactive (acc2.above_me ++ [moderator])
          acc2.below_me acc2.my_position acc2.im_active
      else
        RosterAcc.mk acc2.entire_sub_inactive acc2.above_me
          (acc2.below_me ++ [moderator]) acc2.my_position acc2.im_active
    rosterFold meName rest (position + 1) acc3

/-- The thirteen class-level SubredditBucket attributes of
InactivityManager. -/
inductive BucketId
  | all_subreddits
  | inactive
  | active_top_mod
  | top_active_mod
  | no_active_mods
  | inactive_top_mod
  | inactive_top_2
  | inactive_top_3
  | inactive_top_5
  | inactive_top_10
  | active_inactive_above
  | inactive_active_below
  | only_one_active
deriving DecidableEq

/-- A bucket entry: the subreddit together with the supplementary
moderators passed to SubredditBucket call. -/
abbrev Entry := String × List Moderator

/-- The bucket registry: the contents of each SubredditBucket. -/
def Buckets := BucketId → List Entry

/-- Buckets before any scan ran. -/
def emptyBuckets : Buckets := fun _ => []

/-- SubredditBucket call: append the entry to the named bucket. -/
def bucketAdd (b : Buckets) (id : BucketId) (e : Entry) : Buckets :=
  fun i => if i = id then b i ++ [e] else b i

/-- Apply a sequence of bucket calls in order. -/
def applyFirings : List (BucketId × Entry) → Buckets → Buckets
  | [], b => b
  | (id, e) :: rest, b => applyFirings rest (bucketAdd b id e)

/-- The match statement of InactivityManager.scan on the pair
(my_position, im_active): the fixed rank/activity ladder table. -/
def ladderFirings (sub : String) (inactiveAbove : List Moderator) :
    Option Nat → Bool → List (BucketId × Entry)
  | some 1, true => [(BucketId.active_top_mod, (sub, []))]
  | some 1, false => [(BucketId.inactive_top_mod, (sub, inactiveAbove))]
  | some 2, false => [(BucketId.inactive_top_2, (sub, inactiveAbove))]
  | some 3, false => [(BucketId.inactive_top_3, (sub, inactiveAbove))]
  | some 4, false | some 5, false => [(BucketId.inactive_top_5, (sub, inactiveAbove))]
  | some 6, false | some 7, false | some 8, false | some 9, false
  | some 10, false => [(BucketId.inactive_top_10, (sub, inactiveAbove))]
  | _, _ => []

/-- The bucket calls InactivityManager.scan performs for one subreddit
whose roster was fetched successfully, in source order: the
unconditional all_subreddits call, the entire_sub_inactive test, the
match on (my_position, im_active), and the four trailing if
statements. -/
def subFirings (meName : String) (sub : String) (roster : List Moderator) :
    List (BucketId × Entry) :=
  let a := rosterFold meName roster 1 initRosterAcc
  let inactiveAbove := a.above_me.filter (fun mod => !mod.is_active)
  [(BucketId.all_subreddits, (sub, []))] ++
    (if a.entire_sub_inactive then [(BucketId.no_active_mods, (sub, []))] else []) ++
    ladderFirings sub inactiveAbove a.my_position a.im_active ++
    (if !a.im_active then [(BucketId.inactive, (sub, []))] else []) ++
    (if a.im_active && contain_inactive a.above_me then
      [(BucketId.active_inactive_above, (sub, inactiveAbove))] else []) ++
    (if a.im_active && contain_all_inactive a.above_me then
      [(BucketId.top_active_mod, (sub, inactiveAbove))] else []) ++
    (if a.im_active && contain_all_inactive a.above_me &&
        contain_all_inactive a.below_me then
      [(BucketId.only_one_active,
        (sub, (a.above_me ++ a.below_me).filter (fun mod => !mod.is_active)))]
     else []) ++
    (if !a.im_active && contain_active a.below_me then
      [(BucketId.inactive_active_below,
        (sub, a.below_me.filter (fun mod => mod.is_active)))]
     else [])

namespace InactivityManager

/-- InactivityManager.scan: one pass over the subreddits; a roster whose
fetch raised is logged and skipped (contributes to no bucket), any other
roster contributes its bucket calls to the class-level registry. -/
def scan (meName : String) :
    List (String × Except ScanError (List Moderator)) → Buckets → Buckets
  | [], b => b
  | (_, Except.error _) :: rest, b => scan meName rest b
  | (sub, Except.ok roster) :: rest, b =>
    scan meName rest (applyFirings (subFirings meName sub roster) b)

end InactivityManager

/-! Concrete inputs used by witnesses and counterexamples. -/

/-- A non-approved item with score 5 that the platform marked as spam. -/
def c1item : MqItem := MqItem.mk 3 5 none (some "reddit") false none

/-- A non-approved item with score 3 and no spam metadata. -/
def c2item : MqItem := MqItem.mk 6 3 none none false none

/-- A previously approved item. -/
def c3item : MqItem := MqItem.mk 1 0 (some "approver") none false none

/-- A plain item for exercising synthetic checks. -/
def c8item : MqItem := MqItem.mk 2 0 none none false none

/-- A synthetic ALL-qualified check that always matches with reason a. -/
def c8_check_all : Check MqItem := Check.mk (fun _ => (true, "a")) ActionQualifier.ALL

/-- A synthetic ANY-qualified check that always matches with reason b. -/
def c8_check_any : Check MqItem := Check.mk (fun _ => (true, "b")) ActionQualifier.ANY

/-- A non-approved item with score 5 below the threshold 10. -/
def c10rItem : MqItem := MqItem.mk 4 5 none none false none

/-- A previously approved item with a high score. -/
def c10aItem : MqItem := MqItem.mk 5 50 (some "modX") none false none

/-- A conversation with no user update but with a moderator update. -/
def c9conv : Conversation :=
  Conversation.mk 1 "sub" none (some "2024-01-01T00:00:00+00:00") false

/-- A conversation with no moderator update at all. -/
def c9conv2 : Conversation := Conversation.mk 2 "sub" none none false

/-- A conversation every check of the c4 witness misses. -/
def c4conv : Conversation :=
  Conversation.mk 3 "sub" (some "2024-01-02T00:00:00+00:00")
    (some "2024-01-01T00:00:00+00:00") false

/-- A single-subreddit scan input whose roster is just the active self. -/
def c5subs : List (String × Except ScanError (List Moderator)) :=
  [("community", Except.ok [Moderator.mk "self" true])]

/-- A single-subreddit scan input with one active moderator other than
the scanning subject. -/
def c7subs : List (String × Except ScanError (List Moderator)) :=
  [("community", Except.ok [Moderator.mk "mod1" true])]

/-! Helper lemmas about the modqueue check loop. -/

/-- When the reapprove short-circuit cannot fire and ci is the first
ANY-qualified check that matches, the check loop returns the remove
outcome carrying the messages of every matching check evaluated so far,
and invokes exactly the checks up to and including ci. -/
theorem evalChecks_first_any (reapprove : Bool) (item : MqItem) (ci : Check MqItem)
    (hna : ¬(reapprove = true ∧ item.approved_by.isSome = true))
    (hq : ci.qualifier = ActionQualifier.ANY)
    (hr : (ci.func item).1 = true) :
    ∀ (pre : List (Check MqItem)),
      (∀ c ∈ pre, c.qualifier = ActionQualifier.ANY → (c.func item).1 = false) →
      ∀ (post : List (Check MqItem)) (rm : Bool) (msgs : List String),
        evalChecks reapprove item (pre ++ ci :: post) rm msgs =
          (ItemOutcome.remove
            (msgs ++ ((pre ++ [ci]).filter (fun c => (c.func item).1)).map
              (fun c => (c.func item).2)),
           pre ++ [ci]) := by
  intro pre
  induction pre with
  | nil =>
    intro _ post rm msgs
    simp only [List.nil_append, evalChecks, if_neg hna]
    rw [if_pos ⟨hr, hq⟩]
    simp [hr, List.filter]
  | cons c rest ih =>
    intro hpre post rm msgs
    have hc : c.qualifier = ActionQualifier.ANY → (c.func item).1 = false :=
      hpre c (List.mem_cons_self c rest)
    have hrest : ∀ x ∈ rest, x.qualifier = ActionQualifier.ANY → (x.func item).1 = false :=
      fun x hx => hpre x (List.mem_cons_of_mem c hx)
    have hnot : ¬((c.func item).1 = true ∧ c.qualifier = ActionQualifier.ANY) := by
      rintro ⟨h1, h2⟩
      rw [hc h2] at h1
      exact Bool.false_ne_true h1
    simp only [List.cons_append, evalChecks, if_neg hna, if_neg hnot, List.append_eq]
    rw [ih hrest post]
    cases hr1 : (c.func item).1 <;> simp [hr1, List.filter_cons, List.append_assoc]

/-- C1: if a rule set contains an ANY-qualified check matching the item
(ci, the first such check: every earlier check is either not
ANY-qualified or does not match), then, whenever the reapprove
short-circuit does not fire for the item, the check loop marks the item
matched so that scanItem routes it to the remove bucket, and the checks
invoked are exactly those up to and including ci: the checks declared
after it are never invoked. -/
theorem any_check_short_circuits (reapprove : Bool) (item : MqItem)
    (pre post : List (Check MqItem)) (ci : Check MqItem) (st : MqState)
    (hna : ¬(reapprove = true ∧ item.approved_by.isSome = true))
    (hq : ci.qualifier = ActionQualifier.ANY)
    (hr : (ci.func item).1 = true)
    (hpre : ∀ c ∈ pre, c.qualifier = ActionQualifier.ANY → (c.func item).1 = false) :
    (evalChecks reapprove item (pre ++ ci :: post) true []).1.matched = true ∧
    (evalChecks reapprove item (pre ++ ci :: post) true []).2 = pre ++ [ci] ∧
    (scanItem reapprove (pre ++ ci :: post) st item).items_to_remove =
      st.items_to_remove ++ [item] ∧
    (scanItem reapprove (pre ++ ci :: post) st item).items_to_reapprove =
      st.items_to_reapprove := by
  have h := evalChecks_first_any reapprove item ci hna hq hr pre hpre post true []
  refine ⟨?_, ?_, ?_, ?_⟩ <;> simp [scanItem, h, ItemOutcome.matched]

/-- C1 witness: item with score 5 flagged as spam, rule set
[check_score 10, check_removed_by_automated_spam, check_score 0]; the
ANY-qualified spam check matches, the item is routed to the remove
bucket, and only the first two checks are invoked. -/
theorem any_check_short_circuits_witness :
    (check_removed_by_automated_spam.qualifier = ActionQualifier.ANY ∧
      (check_removed_by_automated_spam.func c1item).1 = true) ∧
    (evalChecks false c1item
      [check_score 10, check_removed_by_automated_spam, check_score 0] true []).1.matched =
        true ∧
    (evalChecks false c1item
      [check_score 10, check_removed_by_automated_spam, check_score 0] true []).2 =
        [check_score 10, check_removed_by_automated_spam] ∧
    (scanItem false [check_score 10, check_removed_by_automated_spam, check_score 0]
      initMqState c1item).items_to_remove = [c1item] := by
  have h := any_check_short_circuits false c1item [check_score 10] [check_score 0]
    check_removed_by_automated_spam initMqState (by decide) rfl (by decide) (by decide)
  exact ⟨⟨rfl, by decide⟩, h.1, h.2.1, by simpa [initMqState] using h.2.2.1⟩

/-- When the reapprove short-circuit cannot fire and every check is
ALL-qualified, the check loop's verdict is the running conjunction: the
initial flag ANDed with every individual check verdict. -/
theorem evalChecks_all_conj (reapprove : Bool) (item : MqItem)
    (hna : ¬(reapprove = true ∧ item.approved_by.isSome = true)) :
    ∀ (checks : List (Check MqItem)) (rm : Bool) (msgs : List String),
      (∀ c ∈ checks, c.qualifier = ActionQualifier.ALL) →
      (evalChecks reapprove item checks rm msgs).1.matched =
        (rm && checks.all (fun c => (c.func item).1)) := by
  intro checks
  induction checks with
  | nil =>
    intro rm msgs _
    cases rm <;> simp [evalChecks, ItemOutcome.matched]
  | cons c rest ih =>
    intro rm msgs hall
    have hc : c.qualifier = ActionQualifier.ALL := hall c (List.mem_cons_self c rest)
    have hrest : ∀ x ∈ rest, x.qualifier = ActionQualifier.ALL :=
      fun x hx => hall x (List.mem_cons_of_mem c hx)
    have hnot : ¬((c.func item).1 = true ∧ c.qualifier = ActionQualifier.ANY) := by
      rintro ⟨-, h2⟩
      rw [hc] at h2
      cases h2
    simp only [evalChecks, if_neg hna, if_neg hnot, if_pos hc, List.all_cons]
    rw [ih _ _ hrest]
    cases rm <;> cases hr1 : (c.func item).1 <;> simp [hr1]

/-- With an empty rule set the check loop never runs: both the
reapprove short-circuit and every check invocation are skipped and each
listed item, previously approved or not, is appended to the remove
bucket. -/
theorem scanLoop_no_checks (reapprove : Bool) :
    ∀ (items : List MqItem) (st : MqState),
      scanLoop reapprove [] items st =
        MqState.mk st.items_to_reapprove (st.items_to_remove ++ items) := by
  intro items
  induction items with
  | nil => intro st; simp [scanLoop]
  | cons i rest ih =>
    intro st
    simp [scanLoop, scanItem, evalChecks, ih]

/-- C2: when every check of the rule set is ALL-qualified and the
reapprove short-circuit does not fire for the item, the verdict the
check loop computes equals the logical AND of the individual check
verdicts; and with zero checks the loop over any listing routes every
pulled item to the remove bucket. -/
theorem all_checks_conjunction (checks : List (Check MqItem)) (item : MqItem)
    (reapprove : Bool)
    (hall : ∀ c ∈ checks, c.qualifier = ActionQualifier.ALL)
    (hna : ¬(reapprove = true ∧ item.approved_by.isSome = true)) :
    (evalChecks reapprove item checks true []).1.matched =
      checks.all (fun c => (c.func item).1) ∧
    (∀ (r : Bool) (items : List MqItem) (st : MqState),
      (scanLoop r [] items st).items_to_remove = st.items_to_remove ++ items) := by
  constructor
  · simpa using evalChecks_all_conj reapprove item hna checks true [] hall
  · intro r items st
    rw [scanLoop_no_checks r items st]

/-- C2 witness: for the ALL-qualified rule set [check_score 10] and an
item with score 3 the verdict is true (3 < 10), and with zero checks a
two-item listing lands entirely in the remove bucket. -/
theorem all_checks_conjunction_witness :
    (evalChecks false c2item [check_score 10] true []).1.matched =
      ([check_score 10].all (fun c => (c.func c2item).1)) ∧
    (scanLoop true [] [c3item, c2item] initMqState).items_to_remove =
      [c3item, c2item] := by
  have h := all_checks_conjunction [check_score 10] c2item false (by decide) (by decide)
  exact ⟨h.1, by simpa [initMqState] using h.2 true [c3item, c2item] initMqState⟩

/-- C3 counterexample: the prior-approval test sits inside the
per-check loop, so with an empty rule set it is never reached: scanning
a previously approved item with reapproval enabled routes it to the
remove bucket, not the reapprove bucket, and remove_found then removes
and locks it. -/
theorem reapprove_bypass_counterexample :
    (Modqueue.scan true [] (Listing.mk [c3item] none) initMqState).1.items_to_reapprove =
      [] ∧
    (Modqueue.scan true [] (Listing.mk [c3item] none) initMqState).1.items_to_remove =
      [c3item] ∧
    Modqueue.remove_found (fun _ => false)
      (Modqueue.scan true [] (Listing.mk [c3item] none) initMqState).1 =
      [ModAction.remove 1, ModAction.lock 1] ∧
    Modqueue.reapprove_found
      (Modqueue.scan true [] (Listing.mk [c3item] none) initMqState).1 = [] := by
  refine ⟨by decide, by decide, by decide, by decide⟩

/-- C3 amended: provided the rule set contains at least one check, a
previously approved item is, with reapproval enabled, routed straight to
the reapprove bucket with no check invoked and the remove bucket left
untouched; and reapprove_found issues only approve actions. -/
theorem reapprove_bypass (item : MqItem) (c : Check MqItem)
    (checks : List (Check MqItem)) (st : MqState)
    (happ : item.approved_by.isSome = true) :
    evalChecks true item (c :: checks) true [] = (ItemOutcome.reapprove, []) ∧
    (scanItem true (c :: checks) st item).items_to_reapprove =
      st.items_to_reapprove ++ [item] ∧
    (scanItem true (c :: checks) st item).items_to_remove = st.items_to_remove ∧
    (∀ (st2 : MqState) (a : ModAction), a ∈ Modqueue.reapprove_found st2 →
      ∃ n, a = ModAction.approve n) := by
  have h : evalChecks true item (c :: checks) true [] = (ItemOutcome.reapprove, []) := by
    simp [evalChecks, happ]
  refine ⟨h, ?_, ?_, ?_⟩
  · simp [scanItem, h]
  · simp [scanItem, h]
  · intro st2 a ha
    rcases List.mem_map.mp ha with ⟨i, -, hi⟩
    exact ⟨i.id, hi.symm⟩

/-- C3 witness: the previously approved item c3item, scanned with the
one-check rule set [check_score 10] and reapproval enabled, lands in the
reapprove bucket with the remove bucket untouched. -/
theorem reapprove_bypass_witness :
    evalChecks true c3item [check_score 10] true [] = (ItemOutcome.reapprove, []) ∧
    (scanItem true [check_score 10] initMqState c3item).items_to_reapprove = [c3item] ∧
    (scanItem true [check_score 10] initMqState c3item).items_to_remove = [] := by
  have h := reapprove_bypass c3item (check_score 10) [] initMqState (by decide)
  exact ⟨h.1, by simpa [initMqState] using h.2.1, by simpa [initMqState] using h.2.2.1⟩

/-- C8 counterexample: an ALL-qualified check matching with reason a
followed by an ANY-qualified check matching with reason b: the loop
breaks at the ANY check but the recorded message joins both reasons, so
the earlier check's reason does appear. -/
theorem any_reason_only_counterexample :
    (evalChecks false c8item [c8_check_all, c8_check_any] true []).1 =
      ItemOutcome.remove ["a", "b"] ∧
    String.intercalate " | " ["a", "b"] = "a | b" ∧
    "a | b" ≠ "b" := by
  refine ⟨by decide, by decide, by decide⟩

/-- C8 amended: when the first matching ANY-qualified check fires, the
messages recorded for the item are those of every matching check
evaluated up to and including that ANY check, in evaluation order;
checks declared after it contribute nothing. -/
theorem any_match_messages (reapprove : Bool) (item : MqItem)
    (pre post : List (Check MqItem)) (ci : Check MqItem)
    (hna : ¬(reapprove = true ∧ item.approved_by.isSome = true))
    (hq : ci.qualifier = ActionQualifier.ANY)
    (hr : (ci.func item).1 = true)
    (hpre : ∀ c ∈ pre, c.qualifier = ActionQualifier.ANY → (c.func item).1 = false) :
    (evalChecks reapprove item (pre ++ ci :: post) true []).1 =
      ItemOutcome.remove
        (((pre ++ [ci]).filter (fun c => (c.func item).1)).map
          (fun c => (c.func item).2)) := by
  have h := evalChecks_first_any reapprove item ci hna hq hr pre hpre post true []
  simp [h]

/-- C8 amended witness: at the two synthetic checks the recorded
messages are exactly the reasons a then b of the two matching checks. -/
theorem any_match_messages_witness :
    (evalChecks false c8item [c8_check_all, c8_check_any] true []).1 =
      ItemOutcome.remove
        ((([c8_check_all] ++ [c8_check_any]).filter
          (fun c => (c.func c8item).1)).map (fun c => (c.func c8item).2)) := by
  have h := any_match_messages false c8item [c8_check_all] [] c8_check_any
    (by decide) rfl (by decide) (by decide)
  simpa using h

/-- Every item of the remove bucket gets a remove action issued by
remove_found, whether or not its lock later fails. -/
theorem mem_removeActions (lock_fails : MqItem → Bool) :
    ∀ (l : List MqItem) (item : MqItem), item ∈ l →
      ModAction.remove item.id ∈ Modqueue.removeActions lock_fails l := by
  intro l
  induction l with
  | nil => intro item h; cases h
  | cons i rest ih =>
    intro item h
    rcases List.mem_cons.mp h with h1 | h2
    · subst h1; simp [Modqueue.removeActions]
    · simp only [Modqueue.removeActions, List.mem_cons, List.mem_append]
      exact Or.inr (Or.inr (ih item h2))

/-- C10: when the listing raises after yielding some items, scan returns
the (0, 0) counts but the buckets keep every item classified before the
failure: the state equals the plain loop over the yielded items, and a
later remove_found or reapprove_found still issues the remove or approve
action for each retained item. -/
theorem scan_error_keeps_buckets (reapprove : Bool) (checks : List (Check MqItem))
    (items : List MqItem) (e : ScanError) (st : MqState)
    (lock_fails : MqItem → Bool) (item : MqItem) :
    (Modqueue.scan reapprove checks (Listing.mk items (some e)) st).2 = (0, 0) ∧
    (Modqueue.scan reapprove checks (Listing.mk items (some e)) st).1 =
      scanLoop reapprove checks items st ∧
    (item ∈ (scanLoop reapprove checks items st).items_to_remove →
      ModAction.remove item.id ∈
        Modqueue.remove_found lock_fails
          (Modqueue.scan reapprove checks (Listing.mk items (some e)) st).1) ∧
    (item ∈ (scanLoop reapprove checks items st).items_to_reapprove →
      ModAction.approve item.id ∈
        Modqueue.reapprove_found
          (Modqueue.scan reapprove checks (Listing.mk items (some e)) st).1) := by
  refine ⟨rfl, rfl, ?_, ?_⟩
  · intro h
    exact mem_removeActions lock_fails _ item h
  · intro h
    exact List.mem_map.mpr ⟨item, h, rfl⟩

/-- C10 witness: the listing yields a low-score item and a previously
approved item and then raises; scan reports (0, 0) yet the buckets hold
both items and the bulk actions still target them. -/
theorem scan_error_keeps_buckets_witness :
    (Modqueue.scan true [check_score 10] (Listing.mk [c10rItem, c10aItem]
      (some ScanError.generic)) initMqState).2 = (0, 0) ∧
    (Modqueue.scan true [check_score 10] (Listing.mk [c10rItem, c10aItem]
      (some ScanError.generic)) initMqState).1 =
      scanLoop true [check_score 10] [c10rItem, c10aItem] initMqState ∧
    ModAction.remove c10rItem.id ∈
      Modqueue.remove_found (fun _ => false)
        (Modqueue.scan true [check_score 10] (Listing.mk [c10rItem, c10aItem]
          (some ScanError.generic)) initMqState).1 ∧
    ModAction.approve c10aItem.id ∈
      Modqueue.reapprove_found
        (Modqueue.scan true [check_score 10] (Listing.mk [c10rItem, c10aItem]
          (some ScanError.generic)) initMqState).1 := by
  have h := scan_error_keeps_buckets true [check_score 10] [c10rItem, c10aItem]
    ScanError.generic initMqState (fun _ => false) c10rItem
  have h2 := scan_error_keeps_buckets true [check_score 10] [c10rItem, c10aItem]
    ScanError.generic initMqState (fun _ => false) c10aItem
  exact ⟨h.1, h.2.1, h.2.2.1 (by decide), h2.2.2.2 (by decide)⟩

/-! Helper lemmas about the modmail scanner. -/

/-- Membership in the archive set after a Python set.add. -/
theorem mem_setAdd (s : List Conversation) (c d : Conversation) :
    c ∈ setAdd s d ↔ c ∈ s ∨ c = d := by
  unfold setAdd
  by_cases h : d ∈ s
  · rw [if_pos h]
    constructor
    · exact Or.inl
    · rintro (hc | rfl)
      · exact hc
      · exact h
  · rw [if_neg h]
    simp [List.mem_append]

/-- set.add keeps the archive set duplicate-free. -/
theorem nodup_setAdd (s : List Conversation) (d : Conversation) (h : s.Nodup) :
    (setAdd s d).Nodup := by
  unfold setAdd
  by_cases hd : d ∈ s
  · rwa [if_pos hd]
  · rw [if_neg hd]
    exact List.Nodup.append h (List.nodup_singleton d) (by simpa using hd)

/-- A conversation is in the archive set after one state's loop exactly
when it was there before or it was pulled in this state and no check
matched it. -/
theorem mem_processConversations (checks : List (Check Conversation)) :
    ∀ (convs archive : List Conversation) (c : Conversation),
      c ∈ processConversations checks convs archive ↔
        c ∈ archive ∨ (c ∈ convs ∧ firstMatch checks c = none) := by
  intro convs
  induction convs with
  | nil =>
    intro archive c
    simp [processConversations]
  | cons d rest ih =>
    intro archive c
    simp only [processConversations]
    by_cases hm : (firstMatch checks d).isSome = true
    · rw [if_pos hm, ih]
      have hd : firstMatch checks d ≠ none := by
        intro hx
        rw [hx] at hm
        simp at hm
      constructor
      · rintro (h | ⟨h1, h2⟩)
        · exact Or.inl h
        · exact Or.inr ⟨List.mem_cons_of_mem d h1, h2⟩
      · rintro (h | ⟨h1, h2⟩)
        · exact Or.inl h
        · rcases List.mem_cons.mp h1 with rfl | h3
          · exact absurd h2 hd
          · exact Or.inr ⟨h3, h2⟩
    · rw [if_neg hm, ih]
      have hd : firstMatch checks d = none := by
        cases hfm : firstMatch checks d
        · rfl
        · rw [hfm] at hm
          simp at hm
      constructor
      · rintro (h | ⟨h1, h2⟩)
        · rcases (mem_setAdd archive c d).mp h with h3 | rfl
          · exact Or.inl h3
          · exact Or.inr ⟨List.mem_cons_self _ _, hd⟩
        · exact Or.inr ⟨List.mem_cons_of_mem d h1, h2⟩
      · rintro (h | ⟨h1, h2⟩)
        · exact Or.inl ((mem_setAdd archive c d).mpr (Or.inl h))
        · rcases List.mem_cons.mp h1 with rfl | h3
          · exact Or.inl ((mem_setAdd _ _ _).mpr (Or.inr rfl))
          · exact Or.inr ⟨h3, h2⟩

/-- One state's loop keeps the archive set duplicate-free. -/
theorem nodup_processConversations (checks : List (Check Conversation)) :
    ∀ (convs archive : List Conversation), archive.Nodup →
      (processConversations checks convs archive).Nodup := by
  intro convs
  induction convs with
  | nil =>
    intro archive h
    simpa [processConversations] using h
  | cons d rest ih =>
    intro archive h
    simp only [processConversations]
    by_cases hm : (firstMatch checks d).isSome = true
    · rw [if_pos hm]
      exact ih archive h
    · rw [if_neg hm]
      exact ih (setAdd archive d) (nodup_setAdd archive d h)

/-- No check matched a conversation exactly when every check's verdict
on it is false. -/
theorem firstMatch_none_iff (c : Conversation) :
    ∀ checks : List (Check Conversation),
      firstMatch checks c = none ↔ ∀ chk ∈ checks, (chk.func c).1 = false := by
  intro checks
  induction checks with
  | nil => simp [firstMatch]
  | cons chk rest ih =>
    simp only [firstMatch]
    by_cases h : (chk.func c).1 = true
    · rw [if_pos h]
      constructor
      · intro hc
        cases hc
      · intro hall
        exact absurd (hall chk (List.mem_cons_self chk rest)) (by simp [h])
    · rw [if_neg h]
      have hf : (chk.func c).1 = false := by
        cases hx : (chk.func c).1
        · rfl
        · exact absurd hx h
      rw [ih]
      constructor
      · intro hall x hx
        rcases List.mem_cons.mp hx with rfl | h3
        · exact hf
        · exact hall x h3
      · intro hall x hx
        exact hall x (List.mem_cons_of_mem chk hx)

/-- When the state loop of Modmail.scan finishes without a listing
error, a conversation is in the resulting archive set exactly when it
was in the starting set or it was pulled under some state and no check
matched it; and the set stays duplicate-free. -/
theorem scanStates_ok_spec (checks : List (Check Conversation))
    (listing : String → Except ScanError (List Conversation)) :
    ∀ (states : List String) (archive found : List Conversation),
      Modmail.scanStates checks listing states archive = Except.ok found →
      (∀ c, c ∈ found ↔ c ∈ archive ∨
        ((∃ s ∈ states, ∃ l, listing s = Except.ok l ∧ c ∈ l) ∧
          firstMatch checks c = none)) ∧
      (archive.Nodup → found.Nodup) := by
  intro states
  induction states with
  | nil =>
    intro archive found h
    simp only [Modmail.scanStates] at h
    injection h with h
    subst h
    exact ⟨fun c => by simp, id⟩
  | cons s rest ih =>
    intro archive found h
    simp only [Modmail.scanStates] at h
    cases hl : listing s with
    | error e =>
      rw [hl] at h
      cases h
    | ok convs =>
      rw [hl] at h
      have hrec := ih (processConversations checks convs archive) found h
      constructor
      · intro c
        rw [hrec.1 c, mem_processConversations]
        constructor
        · rintro ((h1 | ⟨h1, h2⟩) | ⟨⟨t, ht, l, hl2, hc⟩, h2⟩)
          · exact Or.inl h1
          · exact Or.inr ⟨⟨s, List.mem_cons_self s rest, convs, hl, h1⟩, h2⟩
          · exact Or.inr ⟨⟨t, List.mem_cons_of_mem s ht, l, hl2, hc⟩, h2⟩
        · rintro (h1 | ⟨⟨t, ht, l, hl2, hc⟩, h2⟩)
          · exact Or.inl (Or.inl h1)
          · rcases List.mem_cons.mp ht with rfl | ht2
            · rw [hl] at hl2
              injection hl2 with hl3
              subst hl3
              exact Or.inl (Or.inr ⟨hc, h2⟩)
            · exact Or.inr ⟨⟨t, ht2, l, hl2, hc⟩, h2⟩
      · intro hnd
        exact hrec.2 (nodup_processConversations checks convs archive hnd)

/-- A successful Modmail.scan starting from the empty set yields a
duplicate-free archive whose members are exactly the pulled
conversations on which every check's verdict is false. -/
theorem scan_ok_spec (checks : List (Check Conversation)) (states : List String)
    (listing : String → Except ScanError (List Conversation))
    (archive : List Conversation) (n : Nat)
    (h : Modmail.scan checks states listing [] = Except.ok (archive, n)) :
    archive.Nodup ∧
    ∀ c, c ∈ archive ↔
      ((∃ s ∈ states, ∃ l, listing s = Except.ok l ∧ c ∈ l) ∧
        ∀ chk ∈ checks, (chk.func c).1 = false) := by
  unfold Modmail.scan at h
  cases hs : Modmail.scanStates checks listing states [] with
  | error e =>
    rw [hs] at h
    cases h
  | ok found =>
    rw [hs] at h
    injection h with h
    have hfound : found = archive := congrArg Prod.fst h
    subst hfound
    have hspec := scanStates_ok_spec checks listing states [] found hs
    refine ⟨hspec.2 List.nodup_nil, fun c => ?_⟩
    rw [hspec.1 c]
    simp [firstMatch_none_iff]

/-- C4: for a successful conversation scan started from an empty
archive set, a conversation pulled from any state's listing is in the
archive set exactly when no check in the rule set matched it, and the
archive set is deduplicated: a conversation seen under several states
contributes at most one entry. -/
theorem archive_iff_no_check_matched (checks : List (Check Conversation))
    (states : List String) (listing : String → Except ScanError (List Conversation))
    (archive : List Conversation) (n : Nat) (c : Conversation)
    (h : Modmail.scan checks states listing [] = Except.ok (archive, n)) :
    archive.Nodup ∧
    (c ∈ archive ↔
      (∃ s ∈ states, ∃ l, listing s = Except.ok l ∧ c ∈ l) ∧
      (∀ chk ∈ checks, (chk.func c).1 = false)) := by
  have hspec := scan_ok_spec checks states listing archive n h
  exact ⟨hspec.1, hspec.2 c⟩

/-- C4 witness: one state, a listing yielding one conversation missed
by the check: the scan succeeds and the conversation is archived once. -/
theorem archive_iff_no_check_matched_witness :
    ([c4conv].Nodup) ∧
    (c4conv ∈ [c4conv] ↔
      (∃ s ∈ ["new"], ∃ l,
        (fun _ : String =>
          (Except.ok [c4conv] : Except ScanError (List Conversation))) s =
            Except.ok l ∧ c4conv ∈ l) ∧
      (∀ chk ∈ [check_unanswered false], (chk.func c4conv).1 = false)) :=
  archive_iff_no_check_matched [check_unanswered false] ["new"]
    (fun _ => (Except.ok [c4conv] : Except ScanError (List Conversation)))
    [c4conv] 1 c4conv rfl

/-- C9 counterexample: a conversation with no last_user_update but with
a moderator update: check_unanswered, which tests last_mod_update, does
not match, and the conversation IS added to the archive set by the
scanner. -/
theorem unanswered_matches_counterexample :
    c9conv.last_user_update = none ∧
    (check_unanswered false).func c9conv = (false, "") ∧
    Modmail.scan [check_unanswered false] ["new"]
      (fun _ => (Except.ok [c9conv] : Except ScanError (List Conversation))) [] =
      Except.ok ([c9conv], 1) := by
  exact ⟨rfl, rfl, rfl⟩

/-- C9 amended: for every conversation with no last-mod-update, when
ignore_unanswered is false, check_unanswered matches with reason
unanswered, and consequently the conversation is not added to the
archive set by a successful scan whose rule set contains that check. -/
theorem unanswered_matches (conv : Conversation)
    (checks : List (Check Conversation)) (states : List String)
    (listing : String → Except ScanError (List Conversation))
    (archive : List Conversation) (n : Nat)
    (h : conv.last_mod_update = none)
    (hc : check_unanswered false ∈ checks)
    (hok : Modmail.scan checks states listing [] = Except.ok (archive, n)) :
    (check_unanswered false).func conv = (true, "unanswered") ∧
    conv ∉ archive := by
  have hf : (check_unanswered false).func conv = (true, "unanswered") := by
    simp [check_unanswered, h]
  refine ⟨hf, fun hmem => ?_⟩
  have hspec := (scan_ok_spec checks states listing archive n hok).2 conv
  have hfalse := (hspec.mp hmem).2 (check_unanswered false) hc
  rw [hf] at hfalse
  cases hfalse

/-- C9 amended witness: a conversation with no moderator update is
matched by check_unanswered and left out of the archive set. -/
theorem unanswered_matches_witness :
    (check_unanswered false).func c9conv2 = (true, "unanswered") ∧
    c9conv2 ∉ ([] : List Conversation) := by
  exact unanswered_matches c9conv2 [check_unanswered false] ["new"]
    (fun _ => (Except.ok [c9conv2] : Except ScanError (List Conversation)))
    [] 0 rfl (List.mem_cons_self _ _) rfl

/-- C6 counterexample: Modmail.scan has no try/except around the state
loop: with a listing that raises an access-denied failure the scan
propagates the exception to its caller instead of logging and returning
a zero count. -/
theorem scan_failure_zero_counts_counterexample :
    Modmail.scan [] ["new"]
      (fun _ => (Except.error ScanError.forbidden :
        Except ScanError (List Conversation))) [] =
      Except.error ScanError.forbidden ∧
    (Except.error ScanError.forbidden :
      Except ScanError (List Conversation × Nat)) ≠
      Except.ok (([] : List Conversation), 0) := by
  exact ⟨rfl, by simp⟩

/-- A listing failure in a state, every earlier state having succeeded,
propagates out of the state loop of Modmail.scan. -/
theorem scanStates_error (mchecks : List (Check Conversation))
    (listing : String → Except ScanError (List Conversation))
    (s : String) (e : ScanError) (herr : listing s = Except.error e) :
    ∀ (pre : List String), (∀ t ∈ pre, ∃ l, listing t = Except.ok l) →
      ∀ (rest : List String) (archive : List Conversation),
        Modmail.scanStates mchecks listing (pre ++ s :: rest) archive =
          Except.error e := by
  intro pre
  induction pre with
  | nil =>
    intro _ rest archive
    simp [Modmail.scanStates, herr]
  | cons t pre2 ih =>
    intro hpre rest archive
    rcases hpre t (List.mem_cons_self t pre2) with ⟨l, hl⟩
    simp only [List.cons_append, Modmail.scanStates, hl]
    exact ih (fun x hx => hpre x (List.mem_cons_of_mem t hx)) rest
      (processConversations mchecks l archive)

/-- C6 amended: the item-queue scanner's scan catches both the
access-denied and the generic listing failure, logging and returning
zero counts without raising; the conversation scanner's scan has no
such handler: a failure raised by some state's listing, all earlier
states having succeeded, propagates to Modmail.scan's caller. -/
theorem scan_failure_handling (reapprove : Bool) (checks : List (Check MqItem))
    (items : List MqItem) (e : ScanError) (st : MqState)
    (mchecks : List (Check Conversation))
    (listing : String → Except ScanError (List Conversation))
    (pre : List String) (s : String) (rest : List String)
    (archive : List Conversation)
    (hpre : ∀ t ∈ pre, ∃ l, listing t = Except.ok l)
    (herr : listing s = Except.error e) :
    (Modqueue.scan reapprove checks (Listing.mk items (some e)) st).2 = (0, 0) ∧
    Modmail.scan mchecks (pre ++ s :: rest) listing archive = Except.error e := by
  refine ⟨rfl, ?_⟩
  unfold Modmail.scan
  rw [scanStates_error mchecks listing s e herr pre hpre rest archive]

/-- C6 amended witness: a Forbidden raised by the modqueue listing
yields the (0, 0) counts, while the same failure in the modmail listing
of the second state propagates out of Modmail.scan. -/
theorem scan_failure_handling_witness :
    (Modqueue.scan false [] (Listing.mk [] (some ScanError.forbidden))
      initMqState).2 = (0, 0) ∧
    Modmail.scan [] (["answered"] ++ "new" :: [])
      (fun t => if t = "answered" then
          (Except.ok [] : Except ScanError (List Conversation))
        else Except.error ScanError.forbidden) [] =
      Except.error ScanError.forbidden := by
  exact scan_failure_handling false [] [] ScanError.forbidden initMqState [] _ ["answered"]
    "new" [] [] (by intro t ht; exact ⟨[], by simp_all⟩) (by simp)

/-! Helper lemmas about the ladder classifier's bucket registry. -/

/-- Bucket appends are cumulative: running a firing sequence over any
registry appends exactly what it appends over the empty registry. -/
theorem applyFirings_append_eq :
    ∀ (fs : List (BucketId × Entry)) (b : Buckets) (id : BucketId),
      applyFirings fs b id = b id ++ applyFirings fs emptyBuckets id := by
  intro fs
  induction fs with
  | nil =>
    intro b id
    simp [applyFirings, emptyBuckets]
  | cons f rest ih =>
    intro b id
    cases f with
    | mk i e =>
      simp only [applyFirings]
      rw [ih (bucketAdd b i e) id, ih (bucketAdd emptyBuckets i e) id]
      by_cases h : id = i <;> simp [bucketAdd, emptyBuckets, h]

/-- One classifier pass appends to each class-level bucket exactly the
entries it would produce from empty buckets. -/
theorem scan_append_eq (meName : String) :
    ∀ (subs : List (String × Except ScanError (List Moderator))) (b : Buckets)
      (id : BucketId),
      InactivityManager.scan meName subs b id =
        b id ++ InactivityManager.scan meName subs emptyBuckets id := by
  intro subs
  induction subs with
  | nil =>
    intro b id
    simp [InactivityManager.scan, emptyBuckets]
  | cons p rest ih =>
    intro b id
    rcases p with ⟨sub, r⟩
    cases r with
    | error e =>
      simp only [InactivityManager.scan]
      exact ih b id
    | ok roster =>
      simp only [InactivityManager.scan]
      rw [ih (applyFirings (subFirings meName sub roster) b) id,
        ih (applyFirings (subFirings meName sub roster) emptyBuckets) id,
        applyFirings_append_eq (subFirings meName sub roster) b id]
      simp [List.append_assoc]

/-- C7 counterexample: one subreddit with one moderator: after a second
identical scan the all_subreddits bucket holds the entry twice, so
bucket membership is not identical to the first run's. -/
theorem classifier_idempotent_counterexample :
    InactivityManager.scan "self" c7subs
        (InactivityManager.scan "self" c7subs emptyBuckets)
        BucketId.all_subreddits =
      [("community", []), ("community", [])] ∧
    InactivityManager.scan "self" c7subs emptyBuckets BucketId.all_subreddits =
      [("community", [])] ∧
    ([("community", []), ("community", [])] : List Entry) ≠
      [("community", [])] := by
  exact ⟨rfl, rfl, by decide⟩

/-- C7 amended: the class-level buckets are never reset, so a second
identical scan does not reproduce the first run's membership: each
bucket ends up with the first run's contents followed by a fresh copy
of the entries one pass contributes. -/
theorem classifier_run_twice (meName : String)
    (subs : List (String × Except ScanError (List Moderator))) (b : Buckets)
    (id : BucketId) :
    InactivityManager.scan meName subs (InactivityManager.scan meName subs b) id =
      InactivityManager.scan meName subs b id ++
        InactivityManager.scan meName subs emptyBuckets id :=
  scan_append_eq meName subs (InactivityManager.scan meName subs b) id

/-- The moderator loop preserves this invariant: whenever im_active is
set, the moderator occurrence that set it sits in below_me, so below_me
contains an active moderator. -/
theorem rosterFold_active_below (meName : String) :
    ∀ (roster : List Moderator) (position : Nat) (acc : RosterAcc),
      (acc.im_active = true → ∃ m ∈ acc.below_me, m.is_active = true) →
      ((rosterFold meName roster position acc).im_active = true →
        ∃ m ∈ (rosterFold meName roster position acc).below_me,
          m.is_active = true) := by
  intro roster
  induction roster with
  | nil =>
    intro position acc h
    simpa [rosterFold] using h
  | cons moderator rest ih =>
    intro position acc h
    simp only [rosterFold]
    apply ih
    by_cases hname : moderator.name = meName
    · simp only [if_pos hname]
      intro him
      exact ⟨moderator, by simp, him⟩
    · simp only [if_neg hname]
      by_cases hpos : acc.my_position = none
      · simp only [if_pos hpos]
        intro him
        exact h him
      · simp only [if_neg hpos]
        intro him
        rcases h him with ⟨m, hm, hma⟩
        exact ⟨m, List.mem_append_left _ hm, hma⟩

set_option maxHeartbeats 1000000 in
/-- The ladder match never produces an only_one_active firing. -/
theorem ladderFirings_ids (sub : String) (ia : List Moderator) (p : Option Nat)
    (im : Bool) :
    ∀ x ∈ ladderFirings sub ia p im, x.1 ≠ BucketId.only_one_active := by
  unfold ladderFirings
  split <;> simp

/-- No input can fire the only_one_active bucket: when the subject is
active, the subject's own roster entry lands in below_me, so the
all-below-inactive test is always false. -/
theorem subFirings_no_only_one_active (meName sub : String)
    (roster : List Moderator) (e : Entry) :
    (BucketId.only_one_active, e) ∉ subFirings meName sub roster := by
  intro hmem
  have hinv := rosterFold_active_below meName roster 1 initRosterAcc
    (by simp [initRosterAcc])
  have hcond : ((rosterFold meName roster 1 initRosterAcc).im_active &&
      contain_all_inactive (rosterFold meName roster 1 initRosterAcc).above_me &&
      contain_all_inactive (rosterFold meName roster 1 initRosterAcc).below_me) =
        false := by
    cases him : (rosterFold meName roster 1 initRosterAcc).im_active
    · simp
    · rcases hinv him with ⟨m, hm, hma⟩
      have hbelow :
          contain_all_inactive (rosterFold meName roster 1 initRosterAcc).below_me =
            false := by
        by_contra hne
        have hall :
            contain_all_inactive
              (rosterFold meName roster 1 initRosterAcc).below_me = true := by
          cases hx : contain_all_inactive
            (rosterFold meName roster 1 initRosterAcc).below_me
          · exact absurd hx hne
          · rfl
        have hx := (List.all_eq_true.mp hall) m hm
        rw [hma] at hx
        simp at hx
      simp [hbelow]
  simp only [subFirings, List.mem_append] at hmem
  rcases hmem with ((((((h | h) | h) | h) | h) | h) | h) | h
  · simp at h
  · split at h <;> simp at h
  · exact absurd rfl (ladderFirings_ids sub _ _ _ _ h)
  · split at h <;> simp at h
  · split at h <;> simp at h
  · split at h <;> simp at h
  · split at h
    next hcond2 =>
      rw [hcond] at hcond2
      cases hcond2
    next => simp at h
  · split at h <;> simp at h

/-- A firing sequence never mentioning a bucket leaves it unchanged. -/
theorem applyFirings_not_mem :
    ∀ (fs : List (BucketId × Entry)) (b : Buckets) (id : BucketId),
      (∀ e, (id, e) ∉ fs) → applyFirings fs b id = b id := by
  intro fs
  induction fs with
  | nil =>
    intro b id _
    rfl
  | cons f rest ih =>
    intro b id h
    rcases f with ⟨i, e⟩
    simp only [applyFirings]
    rw [ih (bucketAdd b i e) id (fun e2 he => h e2 (List.mem_cons_of_mem _ he))]
    have hne : id ≠ i := by
      intro heq
      exact h e (by rw [heq]; exact List.mem_cons_self _ _)
    simp [bucketAdd, hne]

/-- The only_one_active bucket is dead: no scan over any input ever adds
an entry to it. -/
theorem scan_no_only_one_active (meName : String) :
    ∀ (subs : List (String × Except ScanError (List Moderator))) (b : Buckets),
      InactivityManager.scan meName subs b BucketId.only_one_active =
        b BucketId.only_one_active := by
  intro subs
  induction subs with
  | nil =>
    intro b
    rfl
  | cons p rest ih =>
    intro b
    rcases p with ⟨sub, r⟩
    cases r with
    | error e => exact ih b
    | ok roster =>
      simp only [InactivityManager.scan]
      rw [ih (applyFirings (subFirings meName sub roster) b)]
      exact applyFirings_not_mem (subFirings meName sub roster) b
        BucketId.only_one_active
        (fun e => subFirings_no_only_one_active meName sub roster e)

/-- C5 (code-bug exhibit): scanning the single roster [Self(active)]
fires all_subreddits, active_top_mod (rank 1 and active) and
top_active_mod, and does not fire no_active_mods — but, contrary to the
claim, it does not fire only_one_active either: the scanning subject's
own entry is appended to below_me, so the all-below-inactive test fails
whenever the subject is active; indeed the only_one_active bucket never
gains an entry on any input. -/
theorem single_active_self_buckets :
    InactivityManager.scan "self" c5subs emptyBuckets BucketId.all_subreddits =
      [("community", [])] ∧
    InactivityManager.scan "self" c5subs emptyBuckets BucketId.active_top_mod =
      [("community", [])] ∧
    InactivityManager.scan "self" c5subs emptyBuckets BucketId.top_active_mod =
      [("community", [])] ∧
    InactivityManager.scan "self" c5subs emptyBuckets BucketId.no_active_mods = [] ∧
    InactivityManager.scan "self" c5subs emptyBuckets BucketId.only_one_active = [] ∧
    (∀ (meName : String) (subs : List (String × Except ScanError (List Moderator)))
        (b : Buckets),
      InactivityManager.scan meName subs b BucketId.only_one_active =
        b BucketId.only_one_active) := by
  exact ⟨rfl, rfl, rfl, rfl, rfl, fun meName subs b => scan_no_only_one_active meName subs b⟩

end AutoModder
